import Mathlib

/-!
Verification of the llng-mcp multi-transport layer.

This file shallowly embeds the transport layer of the repository:
the API transport's deep merge, backend resolution, rollback and
key-deletion logic (src/transport/api.ts), the shell transport's
quoting and command composition (src/transport/ssh.ts), the
Kubernetes transport's pod resolution and exec wrapping
(src/transport/k8s.ts), and the registry's transport construction
(src/transport/registry.ts).  JavaScript values parsed from JSON are
modelled by the inductive `Json`; JavaScript truthiness, property
access, assignment, the `in` operator and object spread are modelled
by explicit functions mirroring the ECMAScript behaviour of the code.
HTTP and subprocess effects are modelled as explicit request/spawn
traces; servers and pod-list queries are oracles passed as arguments.
-/

/-- JSON values as produced by `JSON.parse` in the source. Numbers are
modelled as integers (the configs manipulated by the code use integral
`cfgNum` values; no floating-point behaviour is relied upon). Object
fields are kept in insertion order, as JavaScript does for string keys. -/
inductive Json where
  | null
  | bool (b : Bool)
  | num (n : Int)
  | str (s : String)
  | arr (elems : List Json)
  | obj (fields : List (String × Json))

/-- The keys skipped by `ApiTransport.deepMerge` to prevent prototype
pollution (api.ts line 181). -/
def bannedKey (k : String) : Bool :=
  k == "__proto__" || k == "constructor" || k == "prototype"

/-- JavaScript truthiness of a JSON value: `null`, `false`, `0` and the
empty string are falsy; arrays and objects are always truthy. -/
def jsTruthy : Json → Bool
  | Json.null => false
  | Json.bool b => b
  | Json.num n => n != 0
  | Json.str s => s != ""
  | Json.arr _ => true
  | Json.obj _ => true

/-- Property read `o[k]` on an object; `none` models `undefined`
(also for reads on non-objects, which the code only performs on
objects). -/
def getField : Json → String → Option Json
  | Json.obj fs, k => (fs.find? (fun p => p.1 == k)).map Prod.snd
  | _, _ => none

/-- Property write `o[k] = v` in JavaScript: an existing key keeps its
position in the enumeration order, a new key is appended at the end. -/
def setFieldJs : Json → String → Json → Json
  | Json.obj fs, k, v =>
      if fs.any (fun p => p.1 == k) then
        Json.obj (fs.map (fun p => if p.1 == k then (k, v) else p))
      else
        Json.obj (fs ++ [(k, v)])
  | j, _, _ => j

/-- Object spread `\x7b...target\x7d` as used at the top of `deepMerge`:
spreading an object copies its fields, spreading an array or a string
yields an object keyed by decimal indices, spreading any other
primitive yields the empty object. -/
def shallowCopy : Json → Json
  | Json.obj fs => Json.obj fs
  | Json.arr xs => Json.obj (xs.enum.map (fun p => (toString p.1, p.2)))
  | Json.str s => Json.obj (s.data.enum.map (fun p => (toString p.1, Json.str (String.mk [p.2]))))
  | _ => Json.obj []

/-- The fallback `result[key] or-else \x7b\x7d` in the recursive branch of
`deepMerge` (api.ts line 184): a missing or falsy current value is
replaced by an empty object before recursing. -/
def orEmptyObj : Option Json → Json
  | some v => if jsTruthy v then v else Json.obj []
  | none => Json.obj []

/-- The `for (const key in source)` loop of `deepMerge` specialised to a
string source: it enumerates decimal indices whose values are the
one-character strings of the source, which are never objects, so the
loop only performs plain assignments. (Kept separate from the mutual
block because it never recurses into `deepMerge`.) -/
def mergeStrEntries (result : Json) (i : Nat) (cs : List Char) : Json :=
  match cs with
  | [] => result
  | c :: rest =>
      let key := toString i
      if bannedKey key then mergeStrEntries result (i + 1) rest
      else mergeStrEntries (setFieldJs result key (Json.str (String.mk [c]))) (i + 1) rest

mutual

/-- `ApiTransport.deepMerge` (api.ts lines 177-191): copy the target
shallowly, then walk the enumerable keys of the source in order;
banned keys are skipped, plain-object values recurse into the current
value (or an empty object when that is missing or falsy), and every
other value — arrays and scalars included — is assigned wholesale. -/
def deepMerge (target source : Json) : Json :=
  match source with
  | Json.obj fields => mergeEntries (shallowCopy target) fields
  | Json.arr elems => mergeElems (shallowCopy target) 0 elems
  | Json.str s => mergeStrEntries (shallowCopy target) 0 s.data
  | _ => shallowCopy target
termination_by (sizeOf source, 0)

/-- One iteration of the `for...in` body of `deepMerge` after the
banned-key check: the `value instanceof Object && !Array.isArray(value)`
test holds exactly for `Json.obj` values in this model. -/
def mergeStep (result : Json) (key : String) (value : Json) : Json :=
  match value with
  | Json.obj sf =>
      setFieldJs result key (deepMerge (orEmptyObj (getField result key)) (Json.obj sf))
  | v => setFieldJs result key v
termination_by (sizeOf value, 1)

/-- The `for...in` loop of `deepMerge` over an object source. -/
def mergeEntries (result : Json) (fields : List (String × Json)) : Json :=
  match fields with
  | [] => result
  | (key, value) :: rest =>
      if bannedKey key then mergeEntries result rest
      else mergeEntries (mergeStep result key value) rest
termination_by (sizeOf fields, 2)

/-- The `for...in` loop of `deepMerge` over an array source: keys are
decimal indices. -/
def mergeElems (result : Json) (i : Nat) (elems : List Json) : Json :=
  match elems with
  | [] => result
  | value :: rest =>
      let key := toString i
      if bannedKey key then mergeElems result (i + 1) rest
      else mergeElems (mergeStep result key value) (i + 1) rest
termination_by (sizeOf elems, 2)

end

/-! ### Session options and backend resolution (api.ts) -/

/-- `SessionGetOptions` from transport/interface.ts. Optional string
fields are `Option String`; boolean flags absent from a literal are
modelled as `false` (absent and `false` behave identically in the
code's truthiness checks). -/
structure SessionGetOptions where
  backend : Option String
  refreshTokens : Bool
  persistent : Bool
  hash : Bool

/-- `SessionDeleteOptions` from transport/interface.ts: the get options
plus an optional `where` record, modelled as an association list in
enumeration order. `some []` models an empty but present record, which
is truthy in JavaScript. -/
structure SessionDeleteOptions where
  backend : Option String
  refreshTokens : Bool
  persistent : Bool
  hash : Bool
  whereFields : Option (List (String × String))

/-- The `options.backend` fallback `options?.backend or-else "global"`:
an absent or empty backend name resolves to `"global"`. -/
def backendOrGlobal (b : Option String) : String :=
  match b with
  | some s => if s == "" then "global" else s
  | none => "global"

/-- `ApiTransport.resolveBackend` (api.ts lines 217-221): `persistent`
wins, then `refreshTokens` forces `"oidc"`, then the explicit backend,
then `"global"`. The argument is `none` when the caller passed no
options record. -/
def resolveBackend (options : Option SessionGetOptions) : String :=
  match options with
  | none => "global"
  | some o =>
      if o.persistent then "persistent"
      else if o.refreshTokens then "oidc"
      else backendOrGlobal o.backend

/-! ### Shell quoting (ssh.ts) -/

/-- The character rewrite performed by `shellQuote`'s
`replace(/'/g, ...)`: every single quote becomes the four characters
close-quote, backslash, quote, reopen-quote. -/
def quoteChars : List Char → List Char
  | [] => []
  | c :: cs =>
      if c = '\'' then '\'' :: '\\' :: '\'' :: '\'' :: quoteChars cs
      else c :: quoteChars cs

/-- `SshTransport.shellQuote` (ssh.ts lines 183-186): wrap the argument
in single quotes, rewriting embedded single quotes. -/
def shellQuote (arg : String) : String :=
  "'" ++ String.mk (quoteChars arg.data) ++ "'"

/-- POSIX shell unquoting of a single word, written from the spec's
description of quote removal: outside quotes a backslash escapes the
next character and a single quote opens a quoted span; inside single
quotes every character is literal until the closing quote. Returns
`none` for an unterminated quote or trailing backslash. -/
def unquoteAux : Bool → List Char → Option (List Char)
  | true, [] => none
  | false, [] => some []
  | true, c :: cs =>
      if c = '\'' then unquoteAux false cs
      else (unquoteAux true cs).map (c :: ·)
  | false, c :: cs =>
      if c = '\'' then unquoteAux true cs
      else if c = '\\' then
        match cs with
        | [] => none
        | d :: ds => (unquoteAux false ds).map (d :: ·)
      else (unquoteAux false cs).map (c :: ·)

/-- Shell-unquote a whole token. -/
def shellUnquote (s : String) : Option String :=
  (unquoteAux false s.data).map String.mk

/-! ### Shell transport configuration and command composition (ssh.ts, config.ts) -/

/-- A spawned child process: the executable, its argument vector, and
optional data written to its standard input. -/
structure SpawnCall where
  cmd : String
  args : List String
  stdinData : Option String

/-- JavaScript truthiness of an optional string field: absent and empty
strings are both falsy. -/
def strOpt (o : Option String) : Option String :=
  match o with
  | some s => if s == "" then none else some s
  | none => none

/-- `SshConfig` from config.ts: every field optional. The source field
`sudo` is named `sudoUser` here because `sudo` is unavailable as an
identifier in this environment. -/
structure SshCfg where
  host : Option String
  user : Option String
  port : Option Nat
  sudoUser : Option String
  remoteCommand : Option String
  binPfx : Option String
  cliPath : Option String
  sessionsPath : Option String
  configEditorPath : Option String
  deleteSessionPath : Option String

/-- An `SshConfig` with every field absent, as substituted by the
registry for a missing `ssh` block. -/
def emptySshCfg : SshCfg :=
  SshCfg.mk none none none none none none none none none none

def DEFAULT_BIN_PFX : String := "/usr/share/lemonldap-ng/bin"

/-- `ResolvedPaths` from config.ts. -/
structure ResolvedPaths where
  cliPath : String
  sessionsPath : String
  configEditorPath : String

/-- `resolvePaths` from config.ts: an explicit path always wins,
otherwise the path is derived from the bin-directory, which itself
defaults to `/usr/share/lemonldap-ng/bin`. -/
def resolvePaths (binPfx cliPath sessionsPath configEditorPath : Option String) : ResolvedPaths :=
  let pfx := (strOpt binPfx).getD DEFAULT_BIN_PFX
  ResolvedPaths.mk
    ((strOpt cliPath).getD (pfx ++ "/lemonldap-ng-cli"))
    ((strOpt sessionsPath).getD (pfx ++ "/lemonldap-ng-sessions"))
    ((strOpt configEditorPath).getD (pfx ++ "/lmConfigEditor"))

/-- The paths field computed by the `SshTransport` constructor. -/
def sshPaths (cfg : SshCfg) : ResolvedPaths :=
  resolvePaths cfg.binPfx cfg.cliPath cfg.sessionsPath cfg.configEditorPath

/-- The command composition of `SshTransport.exec` (ssh.ts lines 17-78):
with a host, everything becomes one shell-quoted string handed to
`ssh`, layered as sudo over remoteCommand over env over the argv; locally,
sudo and remoteCommand are spliced in front of the argv. -/
def composeExec (cfg : SshCfg) (args : List String) (env : Option (List (String × String)))
    (stdinData : Option String) : SpawnCall :=
  match strOpt cfg.host with
  | some host =>
      let portArgs : List String :=
        match cfg.port with
        | some p => if p != 0 then ["-p", toString p] else []
        | none => []
      let hostSpec :=
        match strOpt cfg.user with
        | some u => u ++ "@" ++ host
        | none => host
      let remoteCmd0 := String.intercalate " " (args.map shellQuote)
      let remoteCmd1 :=
        match env with
        | some e =>
            "env " ++ String.intercalate " " (e.map (fun kv => kv.1 ++ "=" ++ shellQuote kv.2))
              ++ " " ++ remoteCmd0
        | none => remoteCmd0
      let remoteCmd2 :=
        match strOpt cfg.remoteCommand with
        | some rc => rc ++ " " ++ remoteCmd1
        | none => remoteCmd1
      let remoteCmd3 :=
        match strOpt cfg.sudoUser with
        | some su => "sudo -u " ++ shellQuote su ++ " " ++ remoteCmd2
        | none => remoteCmd2
      SpawnCall.mk "ssh" (portArgs ++ [hostSpec, remoteCmd3]) stdinData
  | none =>
      match strOpt cfg.sudoUser with
      | some su =>
          let pre :=
            match strOpt cfg.remoteCommand with
            | some rc => rc.splitOn " "
            | none => []
          SpawnCall.mk "sudo" (["-u", su] ++ pre ++ args) stdinData
      | none =>
          match strOpt cfg.remoteCommand with
          | some rc =>
              let parts := rc.splitOn " "
              SpawnCall.mk (parts.headD "") (parts.tail ++ args) stdinData
          | none => SpawnCall.mk (args.headD "") args.tail stdinData

/-- `pushSessionGetOptions` (ssh.ts lines 200-214, identical in k8s.ts):
appends the persistent, hash, refresh-tokens and backend flags, in that
order; empty backend strings are falsy and skipped. -/
def pushSessionGetOptions (options : Option SessionGetOptions) : List String :=
  match options with
  | none => []
  | some o =>
      (if o.persistent then ["--persistent"] else [])
        ++ (if o.hash then ["--hash"] else [])
        ++ (if o.refreshTokens then ["--refresh-tokens"] else [])
        ++ (match strOpt o.backend with
            | some b => ["--backend", b]
            | none => [])

/-- Forget the `where` field of delete options, as the code does when it
passes the same record to `pushSessionGetOptions`. -/
def SessionDeleteOptions.toGet (o : SessionDeleteOptions) : SessionGetOptions :=
  SessionGetOptions.mk o.backend o.refreshTokens o.persistent o.hash

/-- Replace the first occurrence of `pat` in the character list, as
JavaScript `String.replace` with a string pattern does (only the first
match is rewritten; an empty pattern matches at the start). Helper for
the `llngDeleteSession` path derivation. -/
def replaceFirstAux : List Char → List Char → List Char → List Char
  | [], _, _ => []
  | h :: hs, pat, rep =>
      if pat.isPrefixOf (h :: hs) then rep ++ List.drop pat.length (h :: hs)
      else h :: replaceFirstAux hs pat rep

/-- JavaScript `s.replace(pat, rep)` with a plain-string pattern. -/
def jsReplaceFirst (s pat rep : String) : String :=
  if pat.data.isEmpty then String.mk (rep.data ++ s.data)
  else String.mk (replaceFirstAux s.data pat.data rep.data)

/-- `SshTransport.sessionDelete` (ssh.ts lines 346-366), modelled as the
list of processes spawned on the success path (a failing process
rejects the promise and aborts the remaining iterations; no further
process is spawned after a failure). A present `where` record — even an
empty one — selects the single batched `lemonldap-ng-sessions delete`
invocation; otherwise one `llngDeleteSession` invocation is issued per
id. -/
def sshSessionDelete (cfg : SshCfg) (ids : List String) (options : Option SessionDeleteOptions) :
    List SpawnCall :=
  match options with
  | some o =>
      match o.whereFields with
      | some w =>
          let whereArgs := w.flatMap (fun fv => ["--where", fv.1 ++ "=" ++ fv.2])
          let args := ["delete"] ++ whereArgs ++ pushSessionGetOptions (some o.toGet)
          [composeExec cfg ((sshPaths cfg).sessionsPath :: args) none none]
      | none =>
          let scriptPath :=
            match strOpt cfg.deleteSessionPath with
            | some p => p
            | none => jsReplaceFirst (sshPaths cfg).cliPath "lemonldap-ng-cli" "llngDeleteSession"
          ids.map (fun id =>
            composeExec cfg ([scriptPath, id] ++ pushSessionGetOptions (some o.toGet)) none none)
  | none =>
      let scriptPath := jsReplaceFirst (sshPaths cfg).cliPath "lemonldap-ng-cli" "llngDeleteSession"
      ids.map (fun id => composeExec cfg [scriptPath, id] none none)

/-! ### Unsupported operations on the shell transport (ssh.ts lines 399-419) -/

/-- Each call returns its spawn trace and its outcome; these methods
throw before composing or spawning anything. -/
def sshSecondFactorsGet (_cfg : SshCfg) (_user : String) :
    List SpawnCall × Except String (List Json) :=
  ([], Except.error "secondFactorsGet is not supported via CLI. Use API mode.")

def sshSecondFactorsDelete (_cfg : SshCfg) (_user : String) (_ids : List String) :
    List SpawnCall × Except String Unit :=
  ([], Except.error "secondFactorsDelete is not supported via CLI. Use API mode.")

def sshSecondFactorsDelType (_cfg : SshCfg) (_user _type : String) :
    List SpawnCall × Except String Unit :=
  ([], Except.error "secondFactorsDelType is not supported via CLI. Use API mode.")

def sshConsentsGet (_cfg : SshCfg) (_user : String) :
    List SpawnCall × Except String (List Json) :=
  ([], Except.error "consentsGet is not supported via CLI. Use API mode.")

def sshConsentsDelete (_cfg : SshCfg) (_user : String) (_ids : List String) :
    List SpawnCall × Except String Unit :=
  ([], Except.error "consentsDelete is not supported via CLI. Use API mode.")

/-! ### Kubernetes transport (k8s.ts) -/

/-- `K8sConfig` from config.ts. The source field `namespace` is a Lean
keyword and is named `ns` here; required-but-checkable fields
(`namespace`, `deployment`) are strings whose emptiness models absence,
matching the code's truthiness checks on them. -/
structure K8sCfg where
  context : Option String
  ns : String
  deployment : String
  container : Option String
  podSelector : Option String
  binPfx : Option String

/-- One `kubectl` child process: either the pod-list query of
`resolvePod` or an `exec` invocation wrapping a composed argv. -/
inductive K8sCall where
  | podList (args : List String)
  | podExec (args : List String) (stdinData : Option String)

def K8sCall.isPodList : K8sCall → Bool
  | K8sCall.podList _ => true
  | _ => false

def K8sCall.isPodExec : K8sCall → Bool
  | K8sCall.podExec _ _ => true
  | _ => false

/-- JavaScript `String.trim` on the pod-list output. -/
def isJsWs (c : Char) : Bool :=
  c = ' ' || c = '\n' || c = '\t' || c = '\r'

def jsTrim (s : String) : String :=
  String.mk (((s.data.dropWhile isJsWs).reverse.dropWhile isJsWs).reverse)

/-- The label selector used by `resolvePod`: an explicit (non-empty)
`podSelector` wins, otherwise it is derived from the deployment name. -/
def podSelectorOf (cfg : K8sCfg) : String :=
  match strOpt cfg.podSelector with
  | some s => s
  | none => "app.kubernetes.io/name=" ++ cfg.deployment

/-- The argv of the pod-list query (k8s.ts lines 30-36): `--context` is
unshifted before the base query, then `-n namespace` is unshifted in
front of everything. -/
def podListArgs (cfg : K8sCfg) : List String :=
  let base := ["get", "pods", "-l", podSelectorOf cfg, "-o",
    "jsonpath={.items[0].metadata.name}"]
  let withCtx :=
    match strOpt cfg.context with
    | some c => ["--context", c] ++ base
    | none => base
  ["-n", cfg.ns] ++ withCtx

/-- `K8sTransport.resolvePod` (k8s.ts lines 19-47). The state is the
`cachedPodName` field; `podListOut` is the stdout an actual pod-list
query would produce (the query is only issued — and hence only appears
in the trace — on a cache miss). An output that is empty, the literal
two-character jsonpath miss, or only whitespace fails with the
pod-resolution error; otherwise the trimmed name is cached and
returned. -/
def resolvePod (cfg : K8sCfg) (cached : Option String) (podListOut : String) :
    Option String × List K8sCall × Except String String :=
  match cached with
  | some p => (some p, [], Except.ok p)
  | none =>
      if cfg.ns == "" then
        (none, [], Except.error "K8s namespace is required but not configured")
      else if cfg.deployment == "" && strOpt cfg.podSelector == none then
        (none, [], Except.error "K8s deployment or podSelector is required but not configured")
      else
        let calls := [K8sCall.podList (podListArgs cfg)]
        if podListOut == "" || podListOut == "\x7b\x7d" || jsTrim podListOut == "" then
          (none, calls, Except.error
            ("No pod found for selector \x27" ++ podSelectorOf cfg ++ "\x27 in namespace \x27"
              ++ cfg.ns ++ "\x27"))
        else
          (some (jsTrim podListOut), calls, Except.ok (jsTrim podListOut))

/-- `K8sTransport.buildExecArgs` (k8s.ts lines 106-121). -/
def buildExecArgs (cfg : K8sCfg) (pod : String) (command : List String) : List String :=
  (match strOpt cfg.context with
   | some c => ["--context", c]
   | none => [])
    ++ ["-n", cfg.ns, "exec", pod]
    ++ (match strOpt cfg.container with
        | some c => ["-c", c]
        | none => [])
    ++ ["--"] ++ command

/-- `K8sTransport.exec` (k8s.ts lines 140-144): resolve (or reuse) the
pod, then spawn one `kubectl exec`. The exec's own outcome is modelled
on the success path; a resolution failure spawns no exec. -/
def k8sExec (cfg : K8sCfg) (cached : Option String) (podListOut : String)
    (command : List String) : Option String × List K8sCall × Except String Unit :=
  match resolvePod cfg cached podListOut with
  | (st, calls, Except.error e) => (st, calls, Except.error e)
  | (st, calls, Except.ok pod) =>
      (st, calls ++ [K8sCall.podExec (buildExecArgs cfg pod command) none], Except.ok ())

/-- Sequencing of several `exec` calls on one transport instance,
threading the pod cache; a failure aborts the remaining calls. -/
def k8sExecMany (cfg : K8sCfg) (cached : Option String) (podListOut : String) :
    List (List String) → Option String × List K8sCall × Except String Unit
  | [] => (cached, [], Except.ok ())
  | c :: rest =>
      match k8sExec cfg cached podListOut c with
      | (st, calls, Except.error e) => (st, calls, Except.error e)
      | (st, calls, Except.ok _) =>
          match k8sExecMany cfg st podListOut rest with
          | (st', calls', r) => (st', calls ++ calls', r)

/-- The paths field computed by the `K8sTransport` constructor
(k8s.ts line 16): only `binPrefix` is configurable. -/
def k8sPaths (cfg : K8sCfg) : ResolvedPaths :=
  resolvePaths cfg.binPfx none none none

/-- `K8sTransport.sessionDelete` (k8s.ts lines 291-309): with a present
`where` record one batched `lemonldap-ng-sessions delete` exec is
issued; otherwise one `llngDeleteSession` exec per id. -/
def k8sSessionDelete (cfg : K8sCfg) (cached : Option String) (podListOut : String)
    (ids : List String) (options : Option SessionDeleteOptions) :
    Option String × List K8sCall × Except String Unit :=
  match options with
  | some o =>
      match o.whereFields with
      | some w =>
          let whereArgs := w.flatMap (fun fv => ["--where", fv.1 ++ "=" ++ fv.2])
          let args := ["delete"] ++ whereArgs ++ pushSessionGetOptions (some o.toGet)
          k8sExec cfg cached podListOut ((k8sPaths cfg).sessionsPath :: args)
      | none =>
          let scriptPath :=
            jsReplaceFirst (k8sPaths cfg).cliPath "lemonldap-ng-cli" "llngDeleteSession"
          k8sExecMany cfg cached podListOut
            (ids.map (fun id => [scriptPath, id] ++ pushSessionGetOptions (some o.toGet)))
  | none =>
      let scriptPath :=
        jsReplaceFirst (k8sPaths cfg).cliPath "lemonldap-ng-cli" "llngDeleteSession"
      k8sExecMany cfg cached podListOut (ids.map (fun id => [scriptPath, id]))

/-! ### Unsupported operations on the Kubernetes transport (k8s.ts lines 349-369) -/

def k8sSecondFactorsGet (_cfg : K8sCfg) (_user : String) :
    List K8sCall × Except String (List Json) :=
  ([], Except.error "secondFactorsGet is not supported via CLI. Use API mode.")

def k8sSecondFactorsDelete (_cfg : K8sCfg) (_user : String) (_ids : List String) :
    List K8sCall × Except String Unit :=
  ([], Except.error "secondFactorsDelete is not supported via CLI. Use API mode.")

def k8sSecondFactorsDelType (_cfg : K8sCfg) (_user _type : String) :
    List K8sCall × Except String Unit :=
  ([], Except.error "secondFactorsDelType is not supported via CLI. Use API mode.")

def k8sConsentsGet (_cfg : K8sCfg) (_user : String) :
    List K8sCall × Except String (List Json) :=
  ([], Except.error "consentsGet is not supported via CLI. Use API mode.")

def k8sConsentsDelete (_cfg : K8sCfg) (_user : String) (_ids : List String) :
    List K8sCall × Except String Unit :=
  ([], Except.error "consentsDelete is not supported via CLI. Use API mode.")

/-! ### API transport requests (api.ts) -/

/-- One HTTP request issued by `ApiTransport.request`: method, path
under the base URL, and the JSON body for non-GET requests. -/
structure HttpReq where
  method : String
  path : String
  body : Option Json

/-- A quiescent REST server, used as an oracle for the responses the
transport reads during one operation: `srv method path` is the parsed
JSON body answered for that request. -/
def ApiServer : Type := String → String → Json

/-- The outcome of `fetch` as seen by `ApiTransport.request`: either a
response object or a connection-level rejection carrying a message. -/
structure HttpResponse where
  ok : Bool
  status : Nat
  statusText : String
  contentTypeJson : Bool
  bodyText : String
  bodyJson : Except String Json

inductive FetchResult where
  | success (r : HttpResponse)
  | failure (message : String)

/-- `ApiTransport.request` (api.ts lines 34-87), error and body
handling. The `HTTP status statusText` error for a non-2xx response is
thrown inside the `try` block, so the surrounding catch rewraps it —
like every other `Error` — with the `API request failed: ` prefix.
`bodyJson` is the outcome of `JSON.parse` on the body text (its error
message is host-defined and abstracted by the oracle field). A non-JSON
content type falls back to the raw text: empty bodies yield an empty
object and unparsable bodies are returned as plain strings. -/
def request (fr : FetchResult) : Except String Json :=
  match fr with
  | FetchResult.failure msg => Except.error ("API request failed: " ++ msg)
  | FetchResult.success r =>
      if r.ok = false then
        Except.error ("API request failed: HTTP " ++ toString r.status ++ " " ++ r.statusText)
      else if r.contentTypeJson then
        match r.bodyJson with
        | Except.ok j => Except.ok j
        | Except.error msg => Except.error ("API request failed: " ++ msg)
      else if r.bodyText == "" then Except.ok (Json.obj [])
      else
        match r.bodyJson with
        | Except.ok j => Except.ok j
        | Except.error _ => Except.ok (Json.str r.bodyText)

/-- Does a needle occur as a contiguous character run inside a string?
Used to state that an error message does not carry the response body. -/
def containsSeq (hay needle : List Char) : Bool :=
  match hay with
  | [] => needle.isEmpty
  | _ :: hs => needle.isPrefixOf hay || containsSeq hs needle

/-- The `cfgNum` of a fetched config when it is a number, `none` when
the field is missing or non-numeric (JavaScript `undefined`). -/
def cfgNumOf (j : Json) : Option Int :=
  match getField j "cfgNum" with
  | some (Json.num n) => some n
  | _ => none

/-- The comparison `currentNum <= 1` of `configRollback`: comparing
`undefined` (or a non-number) with a number is always false in
JavaScript, so a missing `cfgNum` falls through to the fetch of the
previous version. -/
def jsLeOne : Option Int → Bool
  | some n => n ≤ 1
  | none => false

/-- The path of the previous version fetched by `configRollback`;
`undefined - 1` is `NaN` in JavaScript, interpolated as "NaN". -/
def prevCfgPath : Option Int → String
  | some n => "/api/v1/config/" ++ toString (n - 1)
  | none => "/api/v1/config/NaN"

def reqGetLatest : HttpReq := HttpReq.mk "GET" "/api/v1/config/latest" none

/-- `ApiTransport.configRollback` (api.ts lines 193-207): read the
current config, fail when its version is ≤ 1 without issuing any
further request, otherwise fetch the previous version and PUT it back
as the new current config. Returns the requests issued and the
outcome. -/
def configRollback (srv : ApiServer) : List HttpReq × Except String Unit :=
  let current := srv "GET" "/api/v1/config/latest"
  let currentNum := cfgNumOf current
  if jsLeOne currentNum then
    ([reqGetLatest], Except.error "Cannot rollback: already at first config")
  else
    let path := prevCfgPath currentNum
    let previous := srv "GET" path
    ([reqGetLatest, HttpReq.mk "GET" path none, HttpReq.mk "PUT" "/api/v1/config" (some previous)],
      Except.ok ())

inductive Mode where
  | ssh
  | api
  | k8s
deriving DecidableEq

/-- `ApiConfig` from config.ts. -/
structure ApiCfg where
  baseUrl : String
  basicAuth : Option (String × String)
  verifySsl : Option Bool

/-- `LlngConfig` from config.ts: a mode plus one optional params block
per transport kind. -/
structure LlngConfig where
  mode : Mode
  ssh : Option SshCfg
  api : Option ApiCfg
  k8s : Option K8sCfg

/-- A constructed transport object, tagged by kind and carrying the
configuration handed to its constructor (construction performs no
I/O). -/
inductive Transport where
  | api (c : ApiCfg)
  | k8s (c : K8sCfg)
  | ssh (c : SshCfg)

/-- `TransportRegistry.buildTransport` (registry.ts lines 36-50): `api`
and `k8s` modes fail fast when their params block is missing; every
other mode builds a shell transport, substituting an empty `ssh`
config when the block is missing (`config.ssh ?? {}`). -/
def buildTransport (config : LlngConfig) : Except String Transport :=
  match config.mode with
  | Mode.api =>
      match config.api with
      | none => Except.error "API mode requires \x27api\x27 configuration"
      | some a => Except.ok (Transport.api a)
  | Mode.k8s =>
      match config.k8s with
      | none => Except.error "K8s mode requires \x27k8s\x27 configuration"
      | some k => Except.ok (Transport.k8s k)
  | Mode.ssh => Except.ok (Transport.ssh (config.ssh.getD emptySshCfg))

/-- The `value instanceof Object && !Array.isArray(value)` test of
`deepMerge` on JSON values: true exactly for plain objects. -/
def isPlainObject : Json → Bool
  | Json.obj _ => true
  | _ => false

/-! ### Concrete instances used by witnesses and counterexamples -/

/-- A server whose latest config is at version 5; version 4 exists. -/
def rollbackSrvEx : ApiServer := fun _ path =>
  if path == "/api/v1/config/latest" then
    Json.obj [("cfgNum", Json.num 5), ("domain", Json.str "old.com")]
  else if path == "/api/v1/config/4" then
    Json.obj [("cfgNum", Json.num 4), ("domain", Json.str "older.com")]
  else Json.null

/-- A non-2xx response whose body is not reflected in the raised error. -/
def http404Ex : HttpResponse :=
  HttpResponse.mk false 404 "Not Found" false "SECRETBODY" (Except.error "parse failure")

/-- A connection-level fetch rejection. -/
def fetchFailEx : FetchResult := FetchResult.failure "connect ECONNREFUSED"

/-- An instance config in shell mode with no `ssh` params block. -/
def sshModeNoBlock : LlngConfig := LlngConfig.mk Mode.ssh none none none

/-- An instance config in API mode with no `api` params block. -/
def apiModeNoBlock : LlngConfig := LlngConfig.mk Mode.api none none none

/-- An instance config in Kubernetes mode with no `k8s` params block. -/
def k8sModeNoBlock : LlngConfig := LlngConfig.mk Mode.k8s none none none

/-- A well-formed Kubernetes transport config. -/
def k8sCfgEx : K8sCfg := K8sCfg.mk none "llng" "lemonldap" none none none

/-- A plain shell transport config (local execution, default paths). -/
def sshCfgEx : SshCfg := emptySshCfg

/-- Delete options carrying a `where` filter. -/
def delOptsWhereEx : SessionDeleteOptions :=
  SessionDeleteOptions.mk none false false false (some [("uid", "john")])

/-- Delete options without a `where` filter. -/
def delOptsIdsEx : SessionDeleteOptions :=
  SessionDeleteOptions.mk none false false false none

theorem find_map_set_self (fs : List (String × Json)) (k : String) (v : Json)
    (h : fs.any (fun p => p.1 == k) = true) :
    (fs.map (fun p => if p.1 == k then (k, v) else p)).find? (fun p => p.1 == k)
      = some (k, v) := by
  induction fs with
  | nil => simp at h
  | cons a rest ih =>
      rw [List.map_cons]
      by_cases ha : a.1 = k
      · rw [if_pos (by simp [ha])]
        exact List.find?_cons_of_pos _ (by simp)
      · rw [if_neg (by simp [ha])]
        rw [List.find?_cons_of_neg _ (by simp [ha])]
        apply ih
        have hb : (a.1 == k) = false := by simp [ha]
        simpa [List.any_cons, hb] using h

theorem find_append_new (fs : List (String × Json)) (k : String) (v : Json)
    (h : fs.any (fun p => p.1 == k) = false) :
    (fs ++ [(k, v)]).find? (fun p => p.1 == k) = some (k, v) := by
  induction fs with
  | nil =>
      rw [List.nil_append]
      exact List.find?_cons_of_pos _ (by simp)
  | cons a rest ih =>
      simp only [List.any_cons, Bool.or_eq_false_iff] at h
      rw [List.cons_append, List.find?_cons_of_neg _ (by simp [h.1])]
      exact ih h.2

theorem find_map_set_ne (fs : List (String × Json)) (k' k : String) (v : Json)
    (hne : k ≠ k') :
    (fs.map (fun p => if p.1 == k' then (k', v) else p)).find? (fun p => p.1 == k)
      = fs.find? (fun p => p.1 == k) := by
  induction fs with
  | nil => rfl
  | cons a rest ih =>
      rw [List.map_cons]
      by_cases ha : a.1 = k'
      · rw [if_pos (by simp [ha])]
        rw [List.find?_cons_of_neg _ (by simp; exact fun hkk => hne hkk.symm)]
        rw [List.find?_cons_of_neg _ (by simp [ha]; exact fun hkk => hne hkk.symm)]
        exact ih
      · rw [if_neg (by simp [ha])]
        by_cases hak : a.1 = k
        · rw [List.find?_cons_of_pos _ (by simp [hak]),
            List.find?_cons_of_pos _ (by simp [hak])]
        · rw [List.find?_cons_of_neg _ (by simp [hak]),
            List.find?_cons_of_neg _ (by simp [hak])]
          exact ih

theorem find_append_ne (fs : List (String × Json)) (k' k : String) (v : Json)
    (hne : k ≠ k') :
    (fs ++ [(k', v)]).find? (fun p => p.1 == k) = fs.find? (fun p => p.1 == k) := by
  induction fs with
  | nil =>
      rw [List.nil_append]
      rw [List.find?_cons_of_neg _ (by simp; exact fun hkk => hne hkk.symm)]
  | cons a rest ih =>
      by_cases hak : a.1 = k
      · rw [List.cons_append, List.find?_cons_of_pos _ (by simp [hak]),
          List.find?_cons_of_pos _ (by simp [hak])]
      · rw [List.cons_append, List.find?_cons_of_neg _ (by simp [hak]),
          List.find?_cons_of_neg _ (by simp [hak])]
        exact ih

theorem getField_setFieldJs_self (fs : List (String × Json)) (k : String) (v : Json) :
    getField (setFieldJs (Json.obj fs) k v) k = some v := by
  by_cases h : fs.any (fun p => p.1 == k) = true
  · simp only [setFieldJs, h, if_true, getField]
    rw [find_map_set_self fs k v h]
    rfl
  · simp only [Bool.not_eq_true] at h
    simp only [setFieldJs, h, Bool.false_eq_true, if_false, getField]
    rw [find_append_new fs k v h]
    rfl

theorem getField_setFieldJs_ne (j : Json) (k' k : String) (v : Json)
    (hne : k ≠ k') :
    getField (setFieldJs j k' v) k = getField j k := by
  cases j with
  | obj fs =>
      by_cases h : fs.any (fun p => p.1 == k') = true
      · simp only [setFieldJs, h, if_true, getField]
        rw [find_map_set_ne fs k' k v hne]
      · simp only [Bool.not_eq_true] at h
        simp only [setFieldJs, h, Bool.false_eq_true, if_false, getField]
        rw [find_append_ne fs k' k v hne]
  | null => rfl
  | bool b => rfl
  | num n => rfl
  | str s => rfl
  | arr xs => rfl

/-! ### Lemmas about deepMerge -/

theorem shallowCopy_obj (fs : List (String × Json)) :
    shallowCopy (Json.obj fs) = Json.obj fs := rfl

theorem deepMerge_obj (t : Json) (fields : List (String × Json)) :
    deepMerge t (Json.obj fields) = mergeEntries (shallowCopy t) fields := by
  simp [deepMerge]

theorem mergeEntries_nil (result : Json) : mergeEntries result [] = result := by
  simp [mergeEntries]

theorem mergeEntries_cons (result : Json) (k : String) (v : Json)
    (rest : List (String × Json)) :
    mergeEntries result ((k, v) :: rest)
      = if bannedKey k then mergeEntries result rest
        else mergeEntries (mergeStep result k v) rest := by
  simp [mergeEntries]

theorem mergeStep_obj (result : Json) (k : String) (sf : List (String × Json)) :
    mergeStep result k (Json.obj sf)
      = setFieldJs result k (deepMerge (orEmptyObj (getField result k)) (Json.obj sf)) := by
  simp [mergeStep]

theorem mergeStep_not_obj (result : Json) (k : String) (v : Json)
    (h : isPlainObject v = false) : mergeStep result k v = setFieldJs result k v := by
  cases v
  case obj sf => simp [isPlainObject] at h
  all_goals simp [mergeStep]

theorem mergeEntries_filter_banned (fields : List (String × Json)) (result : Json) :
    mergeEntries result fields
      = mergeEntries result (fields.filter (fun p => !bannedKey p.1)) := by
  induction fields generalizing result with
  | nil => rfl
  | cons a rest ih =>
      obtain ⟨k, v⟩ := a
      by_cases hb : bannedKey k = true
      · rw [mergeEntries_cons, if_pos hb, List.filter_cons]
        simp only [hb, Bool.not_true, Bool.false_eq_true, if_false]
        exact ih result
      · have hb' : bannedKey k = false := by
          cases hbk : bannedKey k
          · rfl
          · exact absurd hbk hb
        rw [mergeEntries_cons, if_neg hb, List.filter_cons]
        simp only [hb', Bool.not_false, if_true]
        rw [mergeEntries_cons, if_neg hb]
        exact ih (mergeStep result k v)

theorem mergeEntries_getField_banned (fields : List (String × Json)) (result : Json)
    (kb : String) (hkb : bannedKey kb = true) :
    getField (mergeEntries result fields) kb = getField result kb := by
  induction fields generalizing result with
  | nil => rw [mergeEntries_nil]
  | cons a rest ih =>
      obtain ⟨k, v⟩ := a
      by_cases hb : bannedKey k = true
      · rw [mergeEntries_cons, if_pos hb]
        exact ih result
      · rw [mergeEntries_cons, if_neg hb]
        rw [ih (mergeStep result k v)]
        have hkkb : kb ≠ k := by
          intro he
          rw [← he] at hb
          exact hb hkb
        cases v with
        | obj sf => rw [mergeStep_obj, getField_setFieldJs_ne _ _ _ _ hkkb]
        | null =>
            rw [mergeStep_not_obj result k Json.null rfl,
              getField_setFieldJs_ne _ _ _ _ hkkb]
        | bool b =>
            rw [mergeStep_not_obj result k (Json.bool b) rfl,
              getField_setFieldJs_ne _ _ _ _ hkkb]
        | num n =>
            rw [mergeStep_not_obj result k (Json.num n) rfl,
              getField_setFieldJs_ne _ _ _ _ hkkb]
        | str s =>
            rw [mergeStep_not_obj result k (Json.str s) rfl,
              getField_setFieldJs_ne _ _ _ _ hkkb]
        | arr xs =>
            rw [mergeStep_not_obj result k (Json.arr xs) rfl,
              getField_setFieldJs_ne _ _ _ _ hkkb]

/-- C1: the API transport's deep merge, on every current-config object
and JSON snippet, satisfies `merge(A, \x7b\x7d) = A`; merging is unchanged by
discarding banned source keys, and the value of the merged result at a
banned key is the target's own value (banned source keys are skipped);
a non-object source value — array or scalar — replaces the target value
wholesale; a plain-object source value merges recursively into the
current value; and the spec's concrete array law
`merge(\x7ba:[1,2,3]\x7d, \x7ba:[4,5]\x7d).a = [4,5]` holds. -/
theorem deepMerge_spec (A fields : List (String × Json)) (k kb : String)
    (v : Json) (sf : List (String × Json))
    (hk : bannedKey k = false) (hkb : bannedKey kb = true) :
    deepMerge (Json.obj A) (Json.obj []) = Json.obj A
    ∧ deepMerge (Json.obj A) (Json.obj fields)
        = deepMerge (Json.obj A) (Json.obj (fields.filter (fun p => !bannedKey p.1)))
    ∧ getField (deepMerge (Json.obj A) (Json.obj fields)) kb = getField (Json.obj A) kb
    ∧ (isPlainObject v = false →
        getField (deepMerge (Json.obj A) (Json.obj [(k, v)])) k = some v)
    ∧ getField (deepMerge (Json.obj A) (Json.obj [(k, Json.obj sf)])) k
        = some (deepMerge (orEmptyObj (getField (Json.obj A) k)) (Json.obj sf))
    ∧ getField (deepMerge (Json.obj [("a", Json.arr [Json.num 1, Json.num 2, Json.num 3])])
          (Json.obj [("a", Json.arr [Json.num 4, Json.num 5])])) "a"
        = some (Json.arr [Json.num 4, Json.num 5]) := by
  refine ⟨?_, ?_, ?_, ?_, ?_, ?_⟩
  · rw [deepMerge_obj, shallowCopy_obj, mergeEntries_nil]
  · rw [deepMerge_obj, deepMerge_obj, ← mergeEntries_filter_banned]
  · rw [deepMerge_obj, shallowCopy_obj, mergeEntries_getField_banned _ _ _ hkb]
  · intro hv
    rw [deepMerge_obj, shallowCopy_obj, mergeEntries_cons, if_neg (by simp [hk]),
      mergeEntries_nil, mergeStep_not_obj _ _ _ hv]
    exact getField_setFieldJs_self A k v
  · rw [deepMerge_obj, shallowCopy_obj, mergeEntries_cons, if_neg (by simp [hk]),
      mergeEntries_nil, mergeStep_obj]
    exact getField_setFieldJs_self A k _
  · rw [deepMerge_obj, shallowCopy_obj, mergeEntries_cons, if_neg (by decide),
      mergeEntries_nil,
      mergeStep_not_obj (Json.obj [("a", Json.arr [Json.num 1, Json.num 2, Json.num 3])])
        "a" (Json.arr [Json.num 4, Json.num 5]) rfl]
    exact getField_setFieldJs_self _ _ _

/-- Witness for C1: the merge laws evaluated at a concrete config and
snippet, with the hypotheses discharged at the keys "a" (allowed) and
"__proto__" (banned). -/
theorem deepMerge_spec_witness :
    bannedKey "a" = false ∧ bannedKey "__proto__" = true
    ∧ (deepMerge (Json.obj [("keep", Json.num 7)]) (Json.obj []) = Json.obj [("keep", Json.num 7)]
      ∧ deepMerge (Json.obj [("keep", Json.num 7)])
            (Json.obj [("__proto__", Json.num 1), ("x", Json.num 2)])
          = deepMerge (Json.obj [("keep", Json.num 7)])
              (Json.obj (([("__proto__", Json.num 1), ("x", Json.num 2)]).filter
                (fun p => !bannedKey p.1)))
      ∧ getField (deepMerge (Json.obj [("keep", Json.num 7)])
            (Json.obj [("__proto__", Json.num 1), ("x", Json.num 2)])) "__proto__"
          = getField (Json.obj [("keep", Json.num 7)]) "__proto__"
      ∧ (isPlainObject (Json.arr [Json.num 4, Json.num 5]) = false →
          getField (deepMerge (Json.obj [("keep", Json.num 7)])
              (Json.obj [("a", Json.arr [Json.num 4, Json.num 5])])) "a"
            = some (Json.arr [Json.num 4, Json.num 5]))
      ∧ getField (deepMerge (Json.obj [("keep", Json.num 7)])
            (Json.obj [("a", Json.obj [("y", Json.num 9)])])) "a"
          = some (deepMerge (orEmptyObj (getField (Json.obj [("keep", Json.num 7)]) "a"))
              (Json.obj [("y", Json.num 9)]))
      ∧ getField (deepMerge (Json.obj [("a", Json.arr [Json.num 1, Json.num 2, Json.num 3])])
            (Json.obj [("a", Json.arr [Json.num 4, Json.num 5])])) "a"
          = some (Json.arr [Json.num 4, Json.num 5])) :=
  ⟨by decide, by decide,
    deepMerge_spec [("keep", Json.num 7)] [("__proto__", Json.num 1), ("x", Json.num 2)]
      "a" "__proto__" (Json.arr [Json.num 4, Json.num 5]) [("y", Json.num 9)]
      (by decide) (by decide)⟩

/-- C2: `resolveBackend` resolves exactly one backend name by
precedence — `persistent` beats `refreshTokens` beats the explicit
backend beats the `"global"` default — and satisfies the spec's four
concrete laws. -/
theorem resolveBackend_spec (o : SessionGetOptions) (b : String) :
    (o.persistent = true → resolveBackend (some o) = "persistent")
    ∧ (o.persistent = false → o.refreshTokens = true → resolveBackend (some o) = "oidc")
    ∧ (o.persistent = false → o.refreshTokens = false → o.backend = some b → b ≠ "" →
        resolveBackend (some o) = b)
    ∧ (o.persistent = false → o.refreshTokens = false → o.backend = none →
        resolveBackend (some o) = "global")
    ∧ resolveBackend none = "global"
    ∧ resolveBackend (some (SessionGetOptions.mk (some "saml") true true false)) = "persistent"
    ∧ resolveBackend (some (SessionGetOptions.mk (some "saml") true false false)) = "oidc"
    ∧ resolveBackend (some (SessionGetOptions.mk (some "saml") false false false)) = "saml"
    ∧ resolveBackend (some (SessionGetOptions.mk none false false false)) = "global" := by
  refine ⟨?_, ?_, ?_, ?_, rfl, rfl, rfl, rfl, rfl⟩
  · intro hp
    simp [resolveBackend, hp]
  · intro hp hr
    simp [resolveBackend, hp, hr]
  · intro hp hr hb hbne
    simp [resolveBackend, hp, hr, hb, backendOrGlobal, hbne]
  · intro hp hr hb
    simp [resolveBackend, hp, hr, hb, backendOrGlobal]

/-- Witness for C2: the precedence laws evaluated on the options record
with an explicit "saml" backend and no flags. -/
theorem resolveBackend_spec_witness :
    ((SessionGetOptions.mk (some "saml") false false false).persistent = true →
        resolveBackend (some (SessionGetOptions.mk (some "saml") false false false)) = "persistent")
    ∧ ((SessionGetOptions.mk (some "saml") false false false).persistent = false →
        (SessionGetOptions.mk (some "saml") false false false).refreshTokens = true →
        resolveBackend (some (SessionGetOptions.mk (some "saml") false false false)) = "oidc")
    ∧ ((SessionGetOptions.mk (some "saml") false false false).persistent = false →
        (SessionGetOptions.mk (some "saml") false false false).refreshTokens = false →
        (SessionGetOptions.mk (some "saml") false false false).backend = some "saml" →
        "saml" ≠ "" →
        resolveBackend (some (SessionGetOptions.mk (some "saml") false false false)) = "saml")
    ∧ ((SessionGetOptions.mk (some "saml") false false false).persistent = false →
        (SessionGetOptions.mk (some "saml") false false false).refreshTokens = false →
        (SessionGetOptions.mk (some "saml") false false false).backend = none →
        resolveBackend (some (SessionGetOptions.mk (some "saml") false false false)) = "global")
    ∧ resolveBackend none = "global"
    ∧ resolveBackend (some (SessionGetOptions.mk (some "saml") true true false)) = "persistent"
    ∧ resolveBackend (some (SessionGetOptions.mk (some "saml") true false false)) = "oidc"
    ∧ resolveBackend (some (SessionGetOptions.mk (some "saml") false false false)) = "saml"
    ∧ resolveBackend (some (SessionGetOptions.mk none false false false)) = "global" :=
  resolveBackend_spec (SessionGetOptions.mk (some "saml") false false false) "saml"

theorem unquoteAux_true_quote (cs : List Char) :
    unquoteAux true ('\'' :: cs) = unquoteAux false cs := by
  cases cs <;> simp [unquoteAux]

theorem unquoteAux_true_cons (c : Char) (cs : List Char) (h : ¬ c = '\'') :
    unquoteAux true (c :: cs) = (unquoteAux true cs).map (c :: ·) := by
  cases cs <;> simp [unquoteAux, h]

theorem unquoteAux_false_quote (cs : List Char) :
    unquoteAux false ('\'' :: cs) = unquoteAux true cs := by
  cases cs <;> simp [unquoteAux]

theorem unquoteAux_false_esc (d : Char) (ds : List Char) :
    unquoteAux false ('\\' :: d :: ds) = (unquoteAux false ds).map (d :: ·) := by
  simp [unquoteAux]

theorem unquote_quoteChars (cs : List Char) :
    unquoteAux true (quoteChars cs ++ ['\'']) = some cs := by
  induction cs with
  | nil => simp [quoteChars, unquoteAux]
  | cons c rest ih =>
      by_cases hc : c = '\''
      · subst hc
        have hq : quoteChars ('\'' :: rest)
            = '\'' :: '\\' :: '\'' :: '\'' :: quoteChars rest := by
          simp [quoteChars]
        rw [hq, List.cons_append, List.cons_append, List.cons_append, List.cons_append,
          unquoteAux_true_quote, unquoteAux_false_esc, unquoteAux_false_quote, ih]
        rfl
      · have hq : quoteChars (c :: rest) = c :: quoteChars rest := by
          simp [quoteChars, hc]
        rw [hq, List.cons_append, unquoteAux_true_cons c _ hc, ih]
        rfl

/-- C3: `shellQuote` wraps any string in single quotes with each
embedded single quote rewritten as close-quote, escaped quote,
reopen-quote, and POSIX shell unquoting recovers exactly the original
string — including the empty string and strings containing quotes or
spaces. -/
theorem shellQuote_roundtrip (s : String) :
    shellUnquote (shellQuote s) = some s
    ∧ (shellQuote s).data = '\'' :: (quoteChars s.data ++ ['\'']) := by
  have hd : (shellQuote s).data = '\'' :: (quoteChars s.data ++ ['\'']) := by
    simp [shellQuote]
  refine ⟨?_, hd⟩
  rw [shellUnquote, hd, unquoteAux_false_quote, unquote_quoteChars]
  rfl

/-- C4: when the fetched current config's version is ≤ 1,
`configRollback` fails with the boundary error and its request trace
contains no PUT (the remote config is untouched); when the version is
N > 1 it issues exactly the GET of version N−1 followed by a PUT of
that previous config as the new current config. -/
theorem configRollback_spec (srv : ApiServer) (n : Int)
    (h : cfgNumOf (srv "GET" "/api/v1/config/latest") = some n) :
    (n ≤ 1 →
      configRollback srv
          = ([reqGetLatest], Except.error "Cannot rollback: already at first config")
        ∧ (configRollback srv).1.filter (fun r => r.method == "PUT") = [])
    ∧ (1 < n →
      configRollback srv
        = ([reqGetLatest,
            HttpReq.mk "GET" ("/api/v1/config/" ++ toString (n - 1)) none,
            HttpReq.mk "PUT" "/api/v1/config"
              (some (srv "GET" ("/api/v1/config/" ++ toString (n - 1))))],
          Except.ok ())) := by
  constructor
  · intro hn
    have hle : jsLeOne (cfgNumOf (srv "GET" "/api/v1/config/latest")) = true := by
      rw [h]
      simpa [jsLeOne] using hn
    constructor
    · simp [configRollback, hle]
    · simp [configRollback, hle, reqGetLatest]
  · intro hn
    have hle : jsLeOne (some n) = false := by
      simp [jsLeOne]
      omega
    simp [configRollback, h, hle, prevCfgPath]

/-- Witness for C4: the rollback laws at a server whose latest config
is version 5. -/
theorem configRollback_spec_witness :
    cfgNumOf (rollbackSrvEx "GET" "/api/v1/config/latest") = some 5
    ∧ (((5 : Int) ≤ 1 →
        configRollback rollbackSrvEx
            = ([reqGetLatest], Except.error "Cannot rollback: already at first config")
          ∧ (configRollback rollbackSrvEx).1.filter (fun r => r.method == "PUT") = [])
      ∧ (1 < (5 : Int) →
        configRollback rollbackSrvEx
          = ([reqGetLatest,
              HttpReq.mk "GET" ("/api/v1/config/" ++ toString ((5 : Int) - 1)) none,
              HttpReq.mk "PUT" "/api/v1/config"
                (some (rollbackSrvEx "GET" ("/api/v1/config/" ++ toString ((5 : Int) - 1))))],
            Except.ok ()))) :=
  ⟨rfl, configRollback_spec rollbackSrvEx 5 rfl⟩

/-- Counterexample to C5 as stated: in shell mode a missing `ssh`
params block does not fail fast — the registry substitutes an empty
config and constructs the transport successfully. -/
theorem buildTransport_ssh_missing_counterexample :
    buildTransport sshModeNoBlock = Except.ok (Transport.ssh emptySshCfg) := rfl

/-- C5 (amended): constructing a transport for `api` or `k8s` mode with
the matching params block missing fails fast with a configuration
error; shell mode tolerates a missing `ssh` block by substituting an
empty configuration (defaults apply). -/
theorem buildTransport_spec (c : LlngConfig) :
    (c.mode = Mode.api → c.api = none →
      buildTransport c = Except.error "API mode requires \x27api\x27 configuration")
    ∧ (c.mode = Mode.k8s → c.k8s = none →
      buildTransport c = Except.error "K8s mode requires \x27k8s\x27 configuration")
    ∧ (c.mode = Mode.ssh →
      buildTransport c = Except.ok (Transport.ssh (c.ssh.getD emptySshCfg))) := by
  refine ⟨?_, ?_, ?_⟩
  · intro hm hb
    simp [buildTransport, hm, hb]
  · intro hm hb
    simp [buildTransport, hm, hb]
  · intro hm
    simp [buildTransport, hm]

/-- Witness for C5: the api-mode conjunct applied to a config with no
`api` block (and the other conjuncts vacuous or direct at it). -/
theorem buildTransport_spec_witness :
    (apiModeNoBlock.mode = Mode.api → apiModeNoBlock.api = none →
      buildTransport apiModeNoBlock = Except.error "API mode requires \x27api\x27 configuration")
    ∧ (apiModeNoBlock.mode = Mode.k8s → apiModeNoBlock.k8s = none →
      buildTransport apiModeNoBlock = Except.error "K8s mode requires \x27k8s\x27 configuration")
    ∧ (apiModeNoBlock.mode = Mode.ssh →
      buildTransport apiModeNoBlock = Except.ok (Transport.ssh (apiModeNoBlock.ssh.getD emptySshCfg))) :=
  buildTransport_spec apiModeNoBlock

/-- C6: every 2FA and consent operation on the shell and Kubernetes
transports fails immediately with an explicit "Use API mode." error
and an empty process trace — zero subprocesses are executed. -/
theorem unsupportedOps_spec (scfg : SshCfg) (kcfg : K8sCfg) (user ty : String)
    (ids : List String) :
    sshSecondFactorsGet scfg user
      = ([], Except.error "secondFactorsGet is not supported via CLI. Use API mode.")
    ∧ sshSecondFactorsDelete scfg user ids
      = ([], Except.error "secondFactorsDelete is not supported via CLI. Use API mode.")
    ∧ sshSecondFactorsDelType scfg user ty
      = ([], Except.error "secondFactorsDelType is not supported via CLI. Use API mode.")
    ∧ sshConsentsGet scfg user
      = ([], Except.error "consentsGet is not supported via CLI. Use API mode.")
    ∧ sshConsentsDelete scfg user ids
      = ([], Except.error "consentsDelete is not supported via CLI. Use API mode.")
    ∧ k8sSecondFactorsGet kcfg user
      = ([], Except.error "secondFactorsGet is not supported via CLI. Use API mode.")
    ∧ k8sSecondFactorsDelete kcfg user ids
      = ([], Except.error "secondFactorsDelete is not supported via CLI. Use API mode.")
    ∧ k8sSecondFactorsDelType kcfg user ty
      = ([], Except.error "secondFactorsDelType is not supported via CLI. Use API mode.")
    ∧ k8sConsentsGet kcfg user
      = ([], Except.error "consentsGet is not supported via CLI. Use API mode.")
    ∧ k8sConsentsDelete kcfg user ids
      = ([], Except.error "consentsDelete is not supported via CLI. Use API mode.") :=
  ⟨rfl, rfl, rfl, rfl, rfl, rfl, rfl, rfl, rfl, rfl⟩

/-! ### Lemmas about the Kubernetes exec loop -/

theorem resolvePod_warm (cfg : K8sCfg) (p plo : String) :
    resolvePod cfg (some p) plo = (some p, [], Except.ok p) := rfl

theorem k8sExec_warm (cfg : K8sCfg) (p plo : String) (c : List String) :
    k8sExec cfg (some p) plo c
      = (some p, [K8sCall.podExec (buildExecArgs cfg p c) none], Except.ok ()) := rfl

theorem k8sExecMany_warm (cfg : K8sCfg) (p plo : String) (cmds : List (List String)) :
    k8sExecMany cfg (some p) plo cmds
      = (some p, cmds.map (fun c => K8sCall.podExec (buildExecArgs cfg p c) none),
          Except.ok ()) := by
  induction cmds with
  | nil => rfl
  | cons c rest ih => simp [k8sExecMany, k8sExec_warm, ih]

theorem countP_podExec_of_map (cfg : K8sCfg) (p : String) (cmds : List (List String)) :
    (cmds.map (fun c => K8sCall.podExec (buildExecArgs cfg p c) none)).countP
        K8sCall.isPodExec = cmds.length := by
  induction cmds with
  | nil => rfl
  | cons c rest ih => simp [List.countP_cons, ih, K8sCall.isPodExec]

theorem countP_podList_of_map (cfg : K8sCfg) (p : String) (cmds : List (List String)) :
    (cmds.map (fun c => K8sCall.podExec (buildExecArgs cfg p c) none)).countP
        K8sCall.isPodList = 0 := by
  induction cmds with
  | nil => rfl
  | cons c rest ih => simp [List.countP_cons, ih, K8sCall.isPodList]

/-- C7: on the shell and Kubernetes transports, `sessionDelete` with a
`where` filter issues exactly one batched process invocation regardless
of the number of matching sessions, while `sessionDelete` with an
explicit id list issues exactly one process invocation per id (the
Kubernetes counts are of `kubectl exec` invocations, on a transport
whose pod name is already cached). -/
theorem sessionDelete_invocations (cfg : SshCfg) (kcfg : K8sCfg) (pod plo : String)
    (ids : List String) (o : SessionDeleteOptions) (w : List (String × String)) :
    (o.whereFields = some w → (sshSessionDelete cfg ids (some o)).length = 1)
    ∧ (o.whereFields = none → (sshSessionDelete cfg ids (some o)).length = ids.length)
    ∧ (o.whereFields = some w →
        (k8sSessionDelete kcfg (some pod) plo ids (some o)).2.1.countP K8sCall.isPodExec = 1
          ∧ (k8sSessionDelete kcfg (some pod) plo ids (some o)).2.1.countP
              K8sCall.isPodList = 0)
    ∧ (o.whereFields = none →
        (k8sSessionDelete kcfg (some pod) plo ids (some o)).2.1.countP K8sCall.isPodExec
            = ids.length
          ∧ (k8sSessionDelete kcfg (some pod) plo ids (some o)).2.1.countP
              K8sCall.isPodList = 0) := by
  refine ⟨?_, ?_, ?_, ?_⟩
  · intro hw
    simp [sshSessionDelete, hw]
  · intro hw
    simp [sshSessionDelete, hw]
  · intro hw
    simp [k8sSessionDelete, hw, k8sExec_warm, List.countP_cons, K8sCall.isPodExec,
      K8sCall.isPodList]
  · intro hw
    rw [k8sSessionDelete]
    simp only [hw]
    rw [k8sExecMany_warm]
    constructor
    · rw [countP_podExec_of_map]
      simp
    · rw [countP_podList_of_map]

/-- Witness for C7: the invocation counts at a concrete shell config,
Kubernetes config with cached pod, id list and where-filter options. -/
theorem sessionDelete_invocations_witness :
    (delOptsWhereEx.whereFields = some [("uid", "john")] →
      (sshSessionDelete sshCfgEx ["s1", "s2"] (some delOptsWhereEx)).length = 1)
    ∧ (delOptsWhereEx.whereFields = none →
      (sshSessionDelete sshCfgEx ["s1", "s2"] (some delOptsWhereEx)).length
        = (["s1", "s2"] : List String).length)
    ∧ (delOptsWhereEx.whereFields = some [("uid", "john")] →
      (k8sSessionDelete k8sCfgEx (some "pod-1") "pod-1" ["s1", "s2"]
          (some delOptsWhereEx)).2.1.countP K8sCall.isPodExec = 1
        ∧ (k8sSessionDelete k8sCfgEx (some "pod-1") "pod-1" ["s1", "s2"]
            (some delOptsWhereEx)).2.1.countP K8sCall.isPodList = 0)
    ∧ (delOptsWhereEx.whereFields = none →
      (k8sSessionDelete k8sCfgEx (some "pod-1") "pod-1" ["s1", "s2"]
          (some delOptsWhereEx)).2.1.countP K8sCall.isPodExec
          = (["s1", "s2"] : List String).length
        ∧ (k8sSessionDelete k8sCfgEx (some "pod-1") "pod-1" ["s1", "s2"]
            (some delOptsWhereEx)).2.1.countP K8sCall.isPodList = 0) :=
  sessionDelete_invocations sshCfgEx k8sCfgEx "pod-1" "pod-1" ["s1", "s2"]
    delOptsWhereEx [("uid", "john")]

/-- C8: a Kubernetes transport with a cold cache resolves its pod with
exactly one pod-list query, caches the trimmed name, and a second
operation reuses the cache with no further list query — two consecutive
operations produce exactly one list query and two exec invocations;
an empty pod-list result fails with the pod-resolution error after the
single list query, executing nothing. -/
theorem k8sPodCaching (cfg : K8sCfg) (plo : String) (c1 c2 : List String)
    (hns : (cfg.ns == "") = false)
    (hdep : (cfg.deployment == "" && strOpt cfg.podSelector == none) = false)
    (hout : (plo == "" || plo == "\x7b\x7d" || jsTrim plo == "") = false) :
    k8sExec cfg none plo c1
      = (some (jsTrim plo),
          [K8sCall.podList (podListArgs cfg),
            K8sCall.podExec (buildExecArgs cfg (jsTrim plo) c1) none],
          Except.ok ())
    ∧ k8sExec cfg (some (jsTrim plo)) plo c2
      = (some (jsTrim plo),
          [K8sCall.podExec (buildExecArgs cfg (jsTrim plo) c2) none],
          Except.ok ())
    ∧ ((k8sExec cfg none plo c1).2.1
        ++ (k8sExec cfg (some (jsTrim plo)) plo c2).2.1).countP K8sCall.isPodList = 1
    ∧ ((k8sExec cfg none plo c1).2.1
        ++ (k8sExec cfg (some (jsTrim plo)) plo c2).2.1).countP K8sCall.isPodExec = 2
    ∧ resolvePod cfg none ""
      = (none, [K8sCall.podList (podListArgs cfg)],
          Except.error ("No pod found for selector \x27" ++ podSelectorOf cfg
            ++ "\x27 in namespace \x27" ++ cfg.ns ++ "\x27")) := by
  have hcold : resolvePod cfg none plo
      = (some (jsTrim plo), [K8sCall.podList (podListArgs cfg)], Except.ok (jsTrim plo)) := by
    rw [resolvePod]
    simp [hns, hdep, hout]
  have h1 : k8sExec cfg none plo c1
      = (some (jsTrim plo),
          [K8sCall.podList (podListArgs cfg),
            K8sCall.podExec (buildExecArgs cfg (jsTrim plo) c1) none],
          Except.ok ()) := by
    rw [k8sExec, hcold]
    rfl
  refine ⟨h1, k8sExec_warm cfg (jsTrim plo) plo c2, ?_, ?_, ?_⟩
  · rw [h1, k8sExec_warm]
    simp [List.countP_cons, K8sCall.isPodList, K8sCall.isPodExec]
  · rw [h1, k8sExec_warm]
    simp [List.countP_cons, K8sCall.isPodList, K8sCall.isPodExec]
  · rw [resolvePod]
    simp [hns, hdep]

/-- Witness for C8: the caching laws at a concrete namespace,
deployment and pod-list output. -/
theorem k8sPodCaching_witness :
    (k8sCfgEx.ns == "") = false
    ∧ (k8sCfgEx.deployment == "" && strOpt k8sCfgEx.podSelector == none) = false
    ∧ (("pod-1" : String) == "" || ("pod-1" : String) == "\x7b\x7d"
        || jsTrim "pod-1" == "") = false
    ∧ (k8sExec k8sCfgEx none "pod-1" ["cmd1"]
        = (some (jsTrim "pod-1"),
            [K8sCall.podList (podListArgs k8sCfgEx),
              K8sCall.podExec (buildExecArgs k8sCfgEx (jsTrim "pod-1") ["cmd1"]) none],
            Except.ok ())
      ∧ k8sExec k8sCfgEx (some (jsTrim "pod-1")) "pod-1" ["cmd2"]
        = (some (jsTrim "pod-1"),
            [K8sCall.podExec (buildExecArgs k8sCfgEx (jsTrim "pod-1") ["cmd2"]) none],
            Except.ok ())
      ∧ ((k8sExec k8sCfgEx none "pod-1" ["cmd1"]).2.1
          ++ (k8sExec k8sCfgEx (some (jsTrim "pod-1")) "pod-1" ["cmd2"]).2.1).countP
            K8sCall.isPodList = 1
      ∧ ((k8sExec k8sCfgEx none "pod-1" ["cmd1"]).2.1
          ++ (k8sExec k8sCfgEx (some (jsTrim "pod-1")) "pod-1" ["cmd2"]).2.1).countP
            K8sCall.isPodExec = 2
      ∧ resolvePod k8sCfgEx none ""
        = (none, [K8sCall.podList (podListArgs k8sCfgEx)],
            Except.error ("No pod found for selector \x27" ++ podSelectorOf k8sCfgEx
              ++ "\x27 in namespace \x27" ++ k8sCfgEx.ns ++ "\x27"))) :=
  ⟨by decide, by decide, by decide,
    k8sPodCaching k8sCfgEx "pod-1" ["cmd1"] ["cmd2"] (by decide) (by decide) (by decide)⟩

/-- Counterexample to C9 as stated: a 404 response with body
"SECRETBODY" raises an error that carries the status and the status
text but not the response body — the body does not occur anywhere in
the raised message. -/
theorem request_body_counterexample :
    request (FetchResult.success http404Ex)
      = Except.error "API request failed: HTTP 404 Not Found"
    ∧ containsSeq ("API request failed: HTTP 404 Not Found").data ("SECRETBODY").data
      = false := by
  constructor
  · rfl
  · decide

/-- C9 (amended): a non-2xx response raises an error carrying the
response status and status text (not the body), wrapped — like every
transport-level failure — with the stable prefix `API request failed: `
followed by the cause. -/
theorem request_error_spec (r : HttpResponse) (msg : String) (h : r.ok = false) :
    request (FetchResult.success r)
      = Except.error ("API request failed: HTTP " ++ toString r.status ++ " " ++ r.statusText)
    ∧ request (FetchResult.failure msg)
      = Except.error ("API request failed: " ++ msg) := by
  constructor
  · simp [request, h]
  · rfl

/-- Witness for C9: the error shapes at the concrete 404 response and a
concrete connection failure. -/
theorem request_error_spec_witness :
    http404Ex.ok = false
    ∧ (request (FetchResult.success http404Ex)
        = Except.error ("API request failed: HTTP " ++ toString http404Ex.status
            ++ " " ++ http404Ex.statusText)
      ∧ request (FetchResult.failure "connect ECONNREFUSED")
        = Except.error ("API request failed: " ++ "connect ECONNREFUSED")) :=
  ⟨rfl, request_error_spec http404Ex "connect ECONNREFUSED" rfl⟩

